import Mathlib

/-!
Verification of the Geo-IP resolution engine (Next.js edge route).

The definitions below are a shallow embedding of the route variant that owns
the `LRUCache` class, the `inflightRequests` map and the
`Promise.any`-based provider race, together with the sibling variants'
`queryIpApiCo` / `createIPResponse` where a claim cites them.
JavaScript `undefined` is modelled as `Option.none`, string truthiness
(`x || y`) by `jsOr`, numeric truthiness (`x || null`) by `numOrNull`,
promise rejection by `Except.error`, and wall-clock milliseconds by `Nat`.
-/

/-- JavaScript string truthiness for `a || b`: an absent or empty string
falls back to `b`. -/
def jsOr (a : Option String) (b : String) : String :=
  match a with
  | some s => if s = "" then b else s
  | none => b

/-- Truthiness of an optional string field: present and nonempty. -/
def truthy (a : Option String) : Bool :=
  match a with
  | some s => !(s == "")
  | none => false

/-- JavaScript numeric truthiness for `x || null`: an absent or zero number
becomes `null`. -/
def numOrNull (a : Option Int) : Option Int :=
  match a with
  | some v => if v = 0 then none else some v
  | none => none

/-- Boolean test that `p` is an initial segment of `s`, on character lists
(the textual reading of an anchored `^...` regular expression). -/
def isInitialSeg : List Char → List Char → Bool
  | [], _ => true
  | _ :: _, [] => false
  | a :: as, b :: bs => a == b && isInitialSeg as bs

/-- String form of `isInitialSeg`. -/
def strStarts (p s : String) : Bool :=
  isInitialSeg p.data s.data

/-- Lower-casing of one ASCII character, for the `/i` regex flag. -/
def lcChar (c : Char) : Char :=
  if 'A' ≤ c && c ≤ 'Z' then Char.ofNat (c.toNat + 32) else c

/-- Lower-casing of a string, character by character. -/
def lcString (s : String) : String :=
  String.mk (s.data.map lcChar)

/-- Membership of a character in a string. -/
def hasChar (s : String) (c : Char) : Bool :=
  s.data.contains c

/-- Case-insensitive hexadecimal digit, for `[0-9a-f]` under `/i`. -/
def isHexCi (c : Char) : Bool :=
  ('0' ≤ c && c ≤ '9') || ('a' ≤ c && c ≤ 'f') || ('A' ≤ c && c ≤ 'F')

/-- Regex `/^127\./`. -/
def matches127 (s : String) : Bool := strStarts "127." s

/-- Regex `/^10\./`. -/
def matches10 (s : String) : Bool := strStarts "10." s

/-- Regex `/^172\.(1[6-9]|2[0-9]|3[0-1])\./`. -/
def matches172 (s : String) : Bool :=
  match s.data with
  | '1' :: '7' :: '2' :: '.' :: c1 :: c2 :: '.' :: _ =>
      (c1 == '1' && ('6' ≤ c2 && c2 ≤ '9')) ||
      (c1 == '2' && ('0' ≤ c2 && c2 ≤ '9')) ||
      (c1 == '3' && (c2 == '0' || c2 == '1'))
  | _ => false

/-- Regex `/^192\.168\./`. -/
def matches192168 (s : String) : Bool := strStarts "192.168." s

/-- Regex `/^::1$/`. -/
def matchesLoopback6 (s : String) : Bool := s == "::1"

/-- Regex `/^fd[0-9a-f]{2}:.+/i` (IPv6 unique-local, `fd` half only). -/
def matchesFd (s : String) : Bool :=
  match s.data with
  | c0 :: c1 :: c2 :: c3 :: c4 :: rest =>
      lcChar c0 == 'f' && lcChar c1 == 'd' && isHexCi c2 && isHexCi c3 &&
      c4 == ':' && !rest.isEmpty
  | _ => false

/-- Regex `/^fe80:.+/i` (IPv6 link-local textual form `fe80:...`). -/
def matchesFe80 (s : String) : Bool :=
  match s.data with
  | c0 :: c1 :: c2 :: c3 :: c4 :: rest =>
      lcChar c0 == 'f' && lcChar c1 == 'e' && c2 == '8' && c3 == '0' &&
      c4 == ':' && !rest.isEmpty
  | _ => false

/-- Regex `/^localhost$/i`. -/
def matchesLocalhost (s : String) : Bool := lcString s == "localhost"

/-- `PRIVATE_IP_RANGES.some(pattern => pattern.test(ip))`: disjunction of the
eight private-range patterns, in source order. -/
def privateMatch (s : String) : Bool :=
  matches127 s || matches10 s || matches172 s || matches192168 s ||
  matchesLoopback6 s || matchesFd s || matchesFe80 s || matchesLocalhost s

/-- The address validator `isValidPublicIP`: rejects empty and sentinel
values and the literal `127.0.0.1`, strings containing neither `.` nor `:`,
and every string matched by one of the private-range patterns. -/
def isValidPublicIP (ip : String) : Bool :=
  if ip == "" || ip == "未知" || ip == "127.0.0.1" then false
  else if !(hasChar ip '.') && !(hasChar ip ':') then false
  else !(privateMatch ip)

/-- The engine's normalized output record (`GeoData`). Fields the code can
leave `undefined` at runtime are `Option`-typed. -/
structure GeoData where
  source : String
  ip : String
  country : String
  countryName : Option String
  city : Option String
  region : Option String
  timezone : Option String
  latitude : Option Int
  longitude : Option Int
  accurate : Bool
  error : Option String
  deriving Repr, DecidableEq

/-- Fields of the `ipapi.co` JSON body that the adapter reads; `error` is the
truthiness of the provider's embedded error flag. -/
structure IpApiCoResponse where
  ip : Option String := none
  country_code : Option String := none
  country_name : Option String := none
  city : Option String := none
  region : Option String := none
  timezone : Option String := none
  latitude : Option Int := none
  longitude : Option Int := none
  error : Bool := false
  deriving Repr, DecidableEq

/-- Fields of the `ipinfo.io` JSON body; `loc` is the `"lat,lon"` string
already split into its two numeric components (absent when the field is
missing or empty). -/
structure IpInfoResponse where
  ip : Option String := none
  country : Option String := none
  city : Option String := none
  region : Option String := none
  timezone : Option String := none
  loc : Option (Int × Int) := none
  deriving Repr, DecidableEq

/-- The nested `timezone` object of the `ipwho.is` body. -/
structure IpWhoIsTimezone where
  id : Option String := none
  deriving Repr, DecidableEq

/-- Fields of the `ipwho.is` JSON body; `success` is the truthiness of the
provider's success flag. -/
structure IpWhoIsResponse where
  success : Bool := false
  ip : Option String := none
  country_code : Option String := none
  country : Option String := none
  city : Option String := none
  region : Option String := none
  timezone : Option IpWhoIsTimezone := none
  latitude : Option Int := none
  longitude : Option Int := none
  deriving Repr, DecidableEq

/-- Fields of the `freeipapi.com` JSON body. -/
structure FreeIpApiResponse where
  ipAddress : Option String := none
  countryCode : Option String := none
  countryName : Option String := none
  cityName : Option String := none
  regionName : Option String := none
  timeZone : Option String := none
  latitude : Option Int := none
  longitude : Option Int := none
  deriving Repr, DecidableEq

/-- Adapter `queryIpApiCo`: throws unless the body arrived, carries no error
flag and has a truthy `country_code`; otherwise builds the record with
`accurate: true`, passing `country_name` through without a default. -/
def queryIpApiCo (ip : String) (resp : Option IpApiCoResponse) :
    Except Unit GeoData :=
  match resp with
  | none => .error ()
  | some d =>
      if d.error || !(truthy d.country_code) then .error ()
      else .ok {
        source := "ipapi.co"
        ip := jsOr d.ip ip
        country := d.country_code.getD ""
        countryName := d.country_name
        city := d.city
        region := d.region
        timezone := d.timezone
        latitude := d.latitude
        longitude := d.longitude
        accurate := true
        error := none }

/-- Adapter `queryIpInfo`: throws unless `country` is truthy; `countryName`
repeats `country`, and `loc` supplies the coordinates when present. -/
def queryIpInfo (ip : String) (resp : Option IpInfoResponse) :
    Except Unit GeoData :=
  match resp with
  | none => .error ()
  | some d =>
      if !(truthy d.country) then .error ()
      else .ok {
        source := "ipinfo"
        ip := jsOr d.ip ip
        country := d.country.getD ""
        countryName := d.country
        city := d.city
        region := d.region
        timezone := d.timezone
        latitude := d.loc.map Prod.fst
        longitude := d.loc.map Prod.snd
        accurate := true
        error := none }

/-- Adapter `queryIpWhoIs`: throws unless the success flag and
`country_code` are truthy; the timezone is the optional chain
`data.timezone?.id`. -/
def queryIpWhoIs (ip : String) (resp : Option IpWhoIsResponse) :
    Except Unit GeoData :=
  match resp with
  | none => .error ()
  | some d =>
      if !d.success || !(truthy d.country_code) then .error ()
      else .ok {
        source := "ipwhois"
        ip := jsOr d.ip ip
        country := d.country_code.getD ""
        countryName := d.country
        city := d.city
        region := d.region
        timezone := d.timezone.bind IpWhoIsTimezone.id
        latitude := d.latitude
        longitude := d.longitude
        accurate := true
        error := none }

/-- Reserved fallback adapter `queryFreeIpApi`: throws unless `countryCode`
is truthy. -/
def queryFreeIpApi (ip : String) (resp : Option FreeIpApiResponse) :
    Except Unit GeoData :=
  match resp with
  | none => .error ()
  | some d =>
      if !(truthy d.countryCode) then .error ()
      else .ok {
        source := "freeipapi"
        ip := jsOr d.ipAddress ip
        country := d.countryCode.getD ""
        countryName := d.countryName
        city := d.cityName
        region := d.regionName
        timezone := d.timeZone
        latitude := d.latitude
        longitude := d.longitude
        accurate := true
        error := none }

/-- One lookup's upstream world: the body each provider would deliver for
this address, `none` when that provider's fetch fails (timeout, non-2xx,
network error or malformed body). -/
structure Env where
  ipapico : Option IpApiCoResponse := none
  ipinfo : Option IpInfoResponse := none
  ipwhois : Option IpWhoIsResponse := none
  freeipapi : Option FreeIpApiResponse := none

/-- The three primary strategies launched by the coordinator, in the order
they appear in the `primaryStrategies` array. -/
def primaries (ip : String) (env : Env) : Fin 3 → Except Unit GeoData
  | 0 => queryIpApiCo ip env.ipapico
  | 1 => queryIpInfo ip env.ipinfo
  | 2 => queryIpWhoIs ip env.ipwhois

/-- Identifier each primary provider writes into `source`. -/
def providerName : Fin 3 → String
  | 0 => "ipapi.co"
  | 1 => "ipinfo"
  | 2 => "ipwhois"

/-- Settlement semantics of `Promise.any`: `order` is the order in which the
racing promises settle; the first settled fulfilment wins, rejections are
skipped, and the race rejects only when every settled promise rejected. -/
def promiseAny (f : Fin 3 → Except Unit GeoData) :
    List (Fin 3) → Except Unit GeoData
  | [] => .error ()
  | i :: rest =>
      match f i with
      | .ok d => .ok d
      | .error _ => promiseAny f rest

/-- First fulfilled racer in settlement order, with its record. -/
def firstSuccess (f : Fin 3 → Except Unit GeoData) :
    List (Fin 3) → Option (Fin 3 × GeoData)
  | [] => none
  | i :: rest =>
      match f i with
      | .ok d => some (i, d)
      | .error _ => firstSuccess f rest

/-- The resolution chain `Promise.any(primaryStrategies).catch(... await
queryFreeIpApi(ip))`: the race's winner when one exists, otherwise one
sequential fallback call. The second component counts fallback invocations. -/
def resolveIP (ip : String) (env : Env) (order : List (Fin 3)) :
    Except Unit GeoData × Nat :=
  match promiseAny (primaries ip env) order with
  | .ok d => (.ok d, 0)
  | .error _ => (queryFreeIpApi ip env.freeipapi, 1)

/-- Value stored under one cache key: the record plus its absolute
expiration timestamp. -/
structure CacheEntry (V : Type) where
  value : V
  expiresAt : Nat
  deriving Repr, DecidableEq

/-- First value bound to `key`, mirroring `Map.prototype.get` on an
iteration-ordered map. -/
def lookupKey (key : String) (l : List (String × α)) : Option α :=
  (l.find? (fun p => p.1 == key)).map Prod.snd

/-- Removal of every binding of `key`, mirroring `Map.prototype.delete`
(on the duplicate-free lists all operations here produce, exactly one
binding is removed). -/
def eraseKey (key : String) (l : List (String × α)) : List (String × α) :=
  l.filter (fun p => p.1 != key)

/-- The `LRUCache` class: its backing `Map` is modelled as an association
list in iteration (insertion) order, oldest binding first. -/
structure LRUCache (V : Type) where
  cache : List (String × CacheEntry V)
  maxEntries : Nat
  ttlMs : Nat
  deriving Repr, DecidableEq

/-- Cache constructed with empty state, as by `new LRUCache(max, ttl)`. -/
def LRUCache.empty (maxEntries ttlMs : Nat) : LRUCache V :=
  ⟨[], maxEntries, ttlMs⟩

/-- Method `LRUCache.get`: a miss returns `null`; a hit whose
`Date.now() > expiresAt` is deleted and returns `null`; otherwise the entry
is deleted and re-inserted at the most-recently-used end and its value
returned. -/
def LRUCache.get (c : LRUCache V) (key : String) (now : Nat) :
    Option V × LRUCache V :=
  match lookupKey key c.cache with
  | none => (none, c)
  | some e =>
      if now > e.expiresAt then
        (none, { c with cache := eraseKey key c.cache })
      else
        (some e.value, { c with cache := eraseKey key c.cache ++ [(key, e)] })

/-- Method `LRUCache.set`: an existing key is deleted first; otherwise, at
capacity, the map's first key is deleted — but only when that key is truthy,
so an empty-string first key is skipped. The new entry is then appended with
expiration `Date.now() + ttlMs`. -/
def LRUCache.set (c : LRUCache V) (key : String) (value : V) (now : Nat) :
    LRUCache V :=
  let base :=
    if (lookupKey key c.cache).isSome then eraseKey key c.cache
    else if c.maxEntries ≤ c.cache.length then
      match c.cache with
      | [] => c.cache
      | (firstKey, _) :: _ =>
          if firstKey == "" then c.cache else eraseKey firstKey c.cache
    else c.cache
  { c with cache := base ++ [(key, ⟨value, now + c.ttlMs⟩)] }

/-- Record returned by the handler when `isValidPublicIP` rejects the
address. -/
def invalidRecord (ip : String) : GeoData :=
  { source := "internal"
    ip := ip
    country := "US"
    countryName := none
    city := none
    region := none
    timezone := none
    latitude := none
    longitude := none
    accurate := false
    error := some "Private or Invalid IP" }

/-- Degraded record synthesized by the handler's final `catch` when the
whole resolution chain rejected. -/
def fallbackErrorRecord (ip : String) : GeoData :=
  { source := "fallback_error"
    ip := ip
    country := "US"
    countryName := some "United States"
    city := none
    region := none
    timezone := none
    latitude := none
    longitude := none
    accurate := false
    error := some "All services failed" }

/-- Outcome of one `GET` request: the response body, the number of outbound
fetches this request caused, and the cache afterwards. -/
structure RunResult where
  body : GeoData
  fetches : Nat
  cache : LRUCache GeoData

/-- Denotation of the `GET` handler for a single request with no handle
already in flight for its address: validate, consult the cache (a hit is
annotated with `" (cache)"`), otherwise run the resolution chain — three
primary fetches plus any fallback fetch — caching a fulfilled record and
synthesizing the degraded record on total rejection. -/
def GETrun (ip : String) (c : LRUCache GeoData) (now : Nat) (env : Env)
    (order : List (Fin 3)) : RunResult :=
  if !(isValidPublicIP ip) then ⟨invalidRecord ip, 0, c⟩
  else
    match c.get ip now with
    | (some d, c') => ⟨{ d with source := d.source ++ " (cache)" }, 0, c'⟩
    | (none, c') =>
        match resolveIP ip env order with
        | (.ok d, fb) => ⟨d, 3 + fb, c'.set ip d now⟩
        | (.error _, fb) => ⟨fallbackErrorRecord ip, 3 + fb, c'⟩

/-- State of the inflight-deduplication map: pending handles keyed by
address (value: an identifier of the backing computation) and a counter
supplying fresh identifiers. -/
structure DedupState where
  inflight : List (String × Nat)
  nextId : Nat
  deriving Repr, DecidableEq

/-- Events of the cooperative scheduling model: a request reaches step 4 of
the handler for `ip`, or the computation pending for `ip` settles with the
given success flag (its `finally` deletes the key in the same atomic step,
since the microtask runs before any other request's turn). -/
inductive DedupEvent where
  | arrive (ip : String)
  | settle (ip : String) (success : Bool)

/-- Transition function of the deduplicator: an arriving request joins an
existing handle unchanged or registers a fresh one; a settlement deletes the
key unconditionally, whatever the outcome. -/
def dedupStep (s : DedupState) : DedupEvent → DedupState
  | .arrive ip =>
      if (lookupKey ip s.inflight).isSome then s
      else ⟨s.inflight ++ [(ip, s.nextId)], s.nextId + 1⟩
  | .settle ip _ => ⟨eraseKey ip s.inflight, s.nextId⟩

/-- States reachable from the module-load state (both maps empty). -/
inductive DedupReachable : DedupState → Prop where
  | init : DedupReachable ⟨[], 0⟩
  | step {s : DedupState} (e : DedupEvent) :
      DedupReachable s → DedupReachable (dedupStep s e)

/-- Input bundle of the sibling variant's `createIPResponse` helper. -/
structure IPResponseData where
  source : String
  ip : String
  country : String
  countryName : Option String := none
  city : Option String := none
  region : Option String := none
  timezone : Option String := none
  latitude : Option Int := none
  longitude : Option Int := none
  accurate : Bool
  error : Option String := none
  deriving Repr, DecidableEq

/-- The sibling variant's `createIPResponse`: fills every optional field
with a default — in particular `countryName: data.countryName ||
data.country` — and includes `error` only when truthy. -/
def createIPResponse (data : IPResponseData) : GeoData :=
  { source := data.source
    ip := data.ip
    country := data.country
    countryName := some (jsOr data.countryName data.country)
    city := some (jsOr data.city "")
    region := some (jsOr data.region "")
    timezone := some (jsOr data.timezone "")
    latitude := numOrNull data.latitude
    longitude := numOrNull data.longitude
    accurate := data.accurate
    error := match data.error with
      | some s => if s = "" then none else some s
      | none => none }

/-- The second route variant's `queryIpApiCo`, which defaults every
optional field: `countryName: data.country_name || data.country_code`,
empty strings for text fields and `|| null` for the coordinates. -/
def queryIpApiCoV2 (ip : String) (resp : Option IpApiCoResponse) :
    Except Unit GeoData :=
  match resp with
  | none => .error ()
  | some d =>
      if d.error || !(truthy d.country_code) then .error ()
      else .ok {
        source := "ipapi.co"
        ip := jsOr d.ip ip
        country := d.country_code.getD ""
        countryName := some (jsOr d.country_name (d.country_code.getD ""))
        city := some (jsOr d.city "")
        region := some (jsOr d.region "")
        timezone := some (jsOr d.timezone "")
        latitude := numOrNull d.latitude
        longitude := numOrNull d.longitude
        accurate := true
        error := none }

/-- A record is good when it is an affirmative provider answer: accurate
and carrying no error field. -/
def goodRecord (d : GeoData) : Prop :=
  d.accurate = true ∧ d.error = none

/-- Invariant of the result cache: every stored record is good. -/
def cacheInv (c : LRUCache GeoData) : Prop :=
  ∀ p ∈ c.cache, goodRecord p.2.value

lemma mem_of_mem_eraseKey {α : Type} {p : String × α} {k : String}
    {l : List (String × α)} (h : p ∈ eraseKey k l) : p ∈ l :=
  (List.mem_filter.mp h).1

lemma lookupKey_some_mem {α : Type} {k : String} {l : List (String × α)}
    {a : α} (h : lookupKey k l = some a) : (k, a) ∈ l := by
  unfold lookupKey at h
  cases hf : l.find? (fun p => p.1 == k) with
  | none => rw [hf] at h; simp at h
  | some p =>
      rw [hf] at h
      have hm := List.mem_of_find?_eq_some hf
      have hp := List.find?_some hf
      obtain ⟨p1, p2⟩ := p
      simp only [beq_iff_eq] at hp
      simp only [Option.map] at h
      cases h
      subst hp
      exact hm

lemma lookupKey_none_not_mem {α : Type} {k : String} {l : List (String × α)}
    (h : lookupKey k l = none) : k ∉ l.map Prod.fst := by
  unfold lookupKey at h
  intro hmem
  obtain ⟨p, hp, hpk⟩ := List.mem_map.mp hmem
  have hnone : l.find? (fun q => q.1 == k) = none := by
    cases hf : l.find? (fun q => q.1 == k) with
    | none => rfl
    | some q => rw [hf] at h; simp at h
  have := List.find?_eq_none.mp hnone p hp
  simp [hpk] at this

lemma lookupKey_eraseKey_self {α : Type} (k : String)
    (l : List (String × α)) : lookupKey k (eraseKey k l) = none := by
  unfold lookupKey eraseKey
  have hall : ∀ p ∈ l.filter (fun p => p.1 != k), ¬((p.1 == k) = true) := by
    intro p hp
    have := (List.mem_filter.mp hp).2
    simpa using this
  rw [List.find?_eq_none.mpr hall]
  rfl

lemma eraseKey_eq_self_of_not_mem {α : Type} {k : String}
    {l : List (String × α)} (h : k ∉ l.map Prod.fst) : eraseKey k l = l := by
  unfold eraseKey
  apply List.filter_eq_self.mpr
  intro p hp
  have : p.1 ≠ k := fun he => h (List.mem_map.mpr ⟨p, hp, he⟩)
  simpa using this

lemma lookupKey_append_self {α : Type} {k : String} {l : List (String × α)}
    (a : α) (h : lookupKey k l = none) :
    lookupKey k (l ++ [(k, a)]) = some a := by
  induction l with
  | nil => simp [lookupKey, List.find?]
  | cons p t ih =>
      unfold lookupKey at h ⊢
      cases hbeq : (p.1 == k) with
      | true => simp [List.find?, hbeq] at h
      | false =>
          simp only [List.find?, hbeq, List.cons_append] at h ⊢
          exact ih h

lemma length_eraseKey_of_lookup {α : Type} {k : String}
    {l : List (String × α)} {a : α} (hnd : (l.map Prod.fst).Nodup)
    (h : lookupKey k l = some a) :
    (eraseKey k l).length + 1 = l.length := by
  induction l with
  | nil => simp [lookupKey, List.find?] at h
  | cons p t ih =>
      simp only [List.map_cons, List.nodup_cons] at hnd
      unfold lookupKey at h
      cases hbeq : (p.1 == k) with
      | true =>
          have hpk : p.1 = k := by simpa using hbeq
          unfold eraseKey
          rw [List.filter_cons]
          simp only [hpk, bne_self_eq_false]
          have : eraseKey k t = t := by
            apply eraseKey_eq_self_of_not_mem
            rw [← hpk]; exact hnd.1
          unfold eraseKey at this
          simp [this]
      | false =>
          simp only [List.find?, hbeq] at h
          unfold eraseKey
          rw [List.filter_cons]
          have : (p.1 != k) = true := by simp [bne]; simpa using hbeq
          simp only [this, if_true]
          simp only [List.length_cons]
          have := ih hnd.2 h
          unfold eraseKey at this
          omega

lemma queryIpApiCo_ok_fields {ip : String} {r : Option IpApiCoResponse}
    {d : GeoData} (h : queryIpApiCo ip r = .ok d) :
    d.accurate = true ∧ d.source = "ipapi.co" ∧ d.error = none := by
  cases r with
  | none => simp [queryIpApiCo] at h
  | some x =>
      simp only [queryIpApiCo] at h
      split at h
      · simp at h
      · cases h; exact ⟨rfl, rfl, rfl⟩

lemma queryIpInfo_ok_fields {ip : String} {r : Option IpInfoResponse}
    {d : GeoData} (h : queryIpInfo ip r = .ok d) :
    d.accurate = true ∧ d.source = "ipinfo" ∧ d.error = none := by
  cases r with
  | none => simp [queryIpInfo] at h
  | some x =>
      simp only [queryIpInfo] at h
      split at h
      · simp at h
      · cases h; exact ⟨rfl, rfl, rfl⟩

lemma queryIpWhoIs_ok_fields {ip : String} {r : Option IpWhoIsResponse}
    {d : GeoData} (h : queryIpWhoIs ip r = .ok d) :
    d.accurate = true ∧ d.source = "ipwhois" ∧ d.error = none := by
  cases r with
  | none => simp [queryIpWhoIs] at h
  | some x =>
      simp only [queryIpWhoIs] at h
      split at h
      · simp at h
      · cases h; exact ⟨rfl, rfl, rfl⟩

lemma queryFreeIpApi_ok_fields {ip : String} {r : Option FreeIpApiResponse}
    {d : GeoData} (h : queryFreeIpApi ip r = .ok d) :
    d.accurate = true ∧ d.source = "freeipapi" ∧ d.error = none := by
  cases r with
  | none => simp [queryFreeIpApi] at h
  | some x =>
      simp only [queryFreeIpApi] at h
      split at h
      · simp at h
      · cases h; exact ⟨rfl, rfl, rfl⟩

lemma primaries_ok_fields {ip : String} {env : Env} {i : Fin 3} {d : GeoData}
    (h : primaries ip env i = .ok d) :
    d.accurate = true ∧ d.source = providerName i ∧ d.error = none := by
  fin_cases i
  · exact queryIpApiCo_ok_fields h
  · exact queryIpInfo_ok_fields h
  · exact queryIpWhoIs_ok_fields h

lemma promiseAny_error_of_all {f : Fin 3 → Except Unit GeoData}
    (hf : ∀ i, f i = .error ()) :
    ∀ order, promiseAny f order = .error () := by
  intro order
  induction order with
  | nil => rfl
  | cons i rest ih => simp only [promiseAny, hf i]; exact ih

lemma promiseAny_ok_mem {f : Fin 3 → Except Unit GeoData}
    {order : List (Fin 3)} {d : GeoData} (h : promiseAny f order = .ok d) :
    ∃ i, f i = .ok d := by
  induction order with
  | nil => simp [promiseAny] at h
  | cons i rest ih =>
      simp only [promiseAny] at h
      cases hfi : f i with
      | ok e => rw [hfi] at h; cases h; exact ⟨i, hfi⟩
      | error e => rw [hfi] at h; exact ih h

lemma firstSuccess_spec {f : Fin 3 → Except Unit GeoData}
    {order : List (Fin 3)} {j : Fin 3} {e : GeoData}
    (h : firstSuccess f order = some (j, e)) : f j = .ok e := by
  induction order with
  | nil => simp [firstSuccess] at h
  | cons i rest ih =>
      simp only [firstSuccess] at h
      cases hfi : f i with
      | ok d => rw [hfi] at h; cases h; exact hfi
      | error d => rw [hfi] at h; exact ih h

lemma promiseAny_ok_of_firstSuccess {f : Fin 3 → Except Unit GeoData}
    {order : List (Fin 3)} {j : Fin 3} {e : GeoData}
    (h : firstSuccess f order = some (j, e)) : promiseAny f order = .ok e := by
  induction order with
  | nil => simp [firstSuccess] at h
  | cons i rest ih =>
      simp only [firstSuccess] at h
      simp only [promiseAny]
      cases hfi : f i with
      | ok d => rw [hfi] at h; cases h; rfl
      | error d => rw [hfi] at h; exact ih h

lemma firstSuccess_isSome_of_mem {f : Fin 3 → Except Unit GeoData}
    {order : List (Fin 3)} {i : Fin 3} {d : GeoData}
    (hm : i ∈ order) (hi : f i = .ok d) :
    ∃ j e, firstSuccess f order = some (j, e) := by
  induction order with
  | nil => cases hm
  | cons a rest ih =>
      cases hfa : f a with
      | ok e => exact ⟨a, e, by simp only [firstSuccess, hfa]⟩
      | error e =>
          rcases List.mem_cons.mp hm with he | hrest
          · subst he; rw [hi] at hfa; cases hfa
          · obtain ⟨j, e', hje⟩ := ih hrest
            exact ⟨j, e', by simp only [firstSuccess, hfa]; exact hje⟩

lemma resolveIP_ok_good {ip : String} {env : Env} {order : List (Fin 3)}
    {d : GeoData} (h : (resolveIP ip env order).1 = .ok d) :
    d.accurate = true ∧ d.error = none := by
  unfold resolveIP at h
  cases hpa : promiseAny (primaries ip env) order with
  | ok e =>
      rw [hpa] at h
      simp only at h
      cases h
      obtain ⟨i, hi⟩ := promiseAny_ok_mem hpa
      have := primaries_ok_fields hi
      exact ⟨this.1, this.2.2⟩
  | error e =>
      rw [hpa] at h
      simp only at h
      have := queryFreeIpApi_ok_fields h
      exact ⟨this.1, this.2.2⟩

lemma get_cache_subset {V : Type} {c : LRUCache V} {k : String} {now : Nat} :
    ∀ p ∈ (c.get k now).2.cache, p ∈ c.cache := by
  intro p hp
  unfold LRUCache.get at hp
  cases hl : lookupKey k c.cache with
  | none => rw [hl] at hp; exact hp
  | some e =>
      rw [hl] at hp
      by_cases hexp : now > e.expiresAt
      · simp only [if_pos hexp] at hp
        exact mem_of_mem_eraseKey hp
      · simp only [if_neg hexp] at hp
        rcases List.mem_append.mp hp with hin | hnew
        · exact mem_of_mem_eraseKey hin
        · have : p = (k, e) := by simpa using hnew
          subst this
          exact lookupKey_some_mem hl

lemma set_cache_subset {V : Type} {c : LRUCache V} {k : String} {v : V}
    {now : Nat} : ∀ p ∈ (c.set k v now).cache,
      p ∈ c.cache ∨ p = (k, ⟨v, now + c.ttlMs⟩) := by
  intro p hp
  unfold LRUCache.set at hp
  simp only at hp
  rcases List.mem_append.mp hp with hbase | hnew
  · left
    split at hbase
    · exact mem_of_mem_eraseKey hbase
    · split at hbase
      · split at hbase
        · exact hbase
        · split at hbase
          · exact hbase
          · exact mem_of_mem_eraseKey hbase
      · exact hbase
  · right
    simpa using hnew

lemma dedup_inflight_nodup {s : DedupState} (hr : DedupReachable s) :
    (s.inflight.map Prod.fst).Nodup := by
  induction hr with
  | init => simp
  | @step t e hs ih =>
      cases e with
      | arrive ip =>
          simp only [dedupStep]
          by_cases hin : (lookupKey ip t.inflight).isSome
          · simp only [if_pos hin]; exact ih
          · simp only [if_neg hin]
            have hnone : lookupKey ip t.inflight = none := by
              cases h : lookupKey ip t.inflight with
              | none => rfl
              | some v => rw [h] at hin; simp at hin
            have hnm := lookupKey_none_not_mem hnone
            rw [List.map_append]
            simp only [List.map_cons, List.map_nil]
            rw [List.nodup_append]
            exact ⟨ih, List.nodup_singleton ip,
              by intro a ha hb; simp at hb; subst hb; exact hnm ha⟩
      | settle ip b =>
          simp only [dedupStep]
          exact List.Nodup.sublist ((List.filter_sublist _).map Prod.fst) ih

lemma isValidPublicIP_true_iff (s : String) :
    isValidPublicIP s = true ↔
      (s ≠ "" ∧ s ≠ "未知" ∧ s ≠ "127.0.0.1" ∧
       (hasChar s '.' = true ∨ hasChar s ':' = true) ∧
       privateMatch s = false) := by
  unfold isValidPublicIP
  by_cases h1 : (s == "" || s == "未知" || s == "127.0.0.1") = true
  · rw [if_pos h1]
    simp only [Bool.or_eq_true, beq_iff_eq] at h1
    constructor
    · intro h; cases h
    · rintro ⟨a, b, c, -, -⟩
      rcases h1 with (h | h) | h
      · exact absurd h a
      · exact absurd h b
      · exact absurd h c
  · rw [if_neg h1]
    simp only [Bool.or_eq_true, beq_iff_eq, not_or] at h1
    by_cases h2 : (!(hasChar s '.') && !(hasChar s ':')) = true
    · rw [if_pos h2]
      simp only [Bool.and_eq_true, Bool.not_eq_true'] at h2
      constructor
      · intro h; cases h
      · rintro ⟨-, -, -, h4, -⟩
        rcases h4 with h | h
        · rw [h2.1] at h; cases h
        · rw [h2.2] at h; cases h
    · rw [if_neg h2]
      simp only [Bool.and_eq_true, Bool.not_eq_true', not_and] at h2
      constructor
      · intro h
        refine ⟨h1.1.1, h1.1.2, h1.2, ?_, ?_⟩
        · cases hd : hasChar s '.' with
          | true => exact Or.inl rfl
          | false =>
              cases hc : hasChar s ':' with
              | true => exact Or.inr rfl
              | false => exact absurd hc (h2 hd)
        · cases hp : privateMatch s with
          | false => rfl
          | true => rw [hp] at h; cases h
      · rintro ⟨-, -, -, -, h5⟩
        rw [h5]
        rfl

lemma isValidPublicIP_false_of_private {s : String}
    (h : privateMatch s = true) : isValidPublicIP s = false := by
  cases hv : isValidPublicIP s with
  | false => rfl
  | true =>
      have := (isValidPublicIP_true_iff s).mp hv
      rw [this.2.2.2.2] at h
      cases h

/-- C1: whenever at least one primary adapter succeeds, the resolution
chain fulfills with the record of the first racer to succeed in settlement
order — `accurate` is true, `source` is that provider's identifier — and
the fallback is not invoked; this holds for every settlement order covering
the three racers, so an early rejection of one primary never makes the
lookup fail while another primary later succeeds. -/
theorem c1_race_first_success (ip : String) (env : Env)
    (order : List (Fin 3)) (hall : ∀ i : Fin 3, i ∈ order)
    (i : Fin 3) (d : GeoData) (hi : primaries ip env i = .ok d) :
    ∃ j e, firstSuccess (primaries ip env) order = some (j, e) ∧
      (resolveIP ip env order).1 = .ok e ∧
      (resolveIP ip env order).2 = 0 ∧
      e.accurate = true ∧ e.source = providerName j := by
  obtain ⟨j, e, hje⟩ := firstSuccess_isSome_of_mem (hall i) hi
  have hpa := promiseAny_ok_of_firstSuccess hje
  have hfields := primaries_ok_fields (firstSuccess_spec hje)
  refine ⟨j, e, hje, ?_, ?_, hfields.1, hfields.2.1⟩
  · unfold resolveIP; rw [hpa]
  · unfold resolveIP; rw [hpa]

/-- Witness for C1: ipapi.co rejects while ipinfo succeeds, and in the
settlement order that delivers the rejection first the resolution still
fulfills with ipinfo's record. -/
theorem c1_race_first_success_witness :
    primaries "8.8.8.8" { ipinfo := some { country := some "US" } } 1 =
      .ok { source := "ipinfo", ip := "8.8.8.8", country := "US",
            countryName := some "US", city := none, region := none,
            timezone := none, latitude := none, longitude := none,
            accurate := true, error := none } ∧
    (∃ j e, firstSuccess
        (primaries "8.8.8.8" { ipinfo := some { country := some "US" } })
        [0, 1, 2] = some (j, e) ∧
      (resolveIP "8.8.8.8" { ipinfo := some { country := some "US" } }
        [0, 1, 2]).1 = .ok e ∧
      (resolveIP "8.8.8.8" { ipinfo := some { country := some "US" } }
        [0, 1, 2]).2 = 0 ∧
      e.accurate = true ∧ e.source = providerName j) :=
  ⟨by rfl,
   c1_race_first_success "8.8.8.8" { ipinfo := some { country := some "US" } }
     [0, 1, 2] (by decide) 1
     { source := "ipinfo", ip := "8.8.8.8", country := "US",
       countryName := some "US", city := none, region := none,
       timezone := none, latitude := none, longitude := none,
       accurate := true, error := none } (by rfl)⟩

/-- C2: for every address the validator rejects, the handler answers
immediately with the invalid record — accurate false and the populated
error string "Private or Invalid IP" — performing zero outbound fetches and
leaving the cache untouched; and the validator does reject 192.168.1.5. -/
theorem c2_invalid_zero_fetches (ip : String) (c : LRUCache GeoData)
    (now : Nat) (env : Env) (order : List (Fin 3))
    (h : isValidPublicIP ip = false) :
    GETrun ip c now env order = ⟨invalidRecord ip, 0, c⟩ ∧
    (GETrun ip c now env order).body.accurate = false ∧
    (GETrun ip c now env order).body.error = some "Private or Invalid IP" ∧
    (GETrun ip c now env order).fetches = 0 ∧
    isValidPublicIP "192.168.1.5" = false := by
  have hrun : GETrun ip c now env order = ⟨invalidRecord ip, 0, c⟩ := by
    unfold GETrun
    rw [h]
    rfl
  refine ⟨hrun, ?_, ?_, ?_, by decide⟩ <;> rw [hrun] <;> rfl

/-- Witness for C2 at the scenario input 192.168.1.5: the validator rejects
it and the handler returns the invalid record with zero fetches. -/
theorem c2_invalid_zero_fetches_witness :
    isValidPublicIP "192.168.1.5" = false ∧
    GETrun "192.168.1.5" (LRUCache.empty 1000 600000) 0 {} [0, 1, 2] =
      ⟨invalidRecord "192.168.1.5", 0, LRUCache.empty 1000 600000⟩ :=
  ⟨by decide,
   (c2_invalid_zero_fetches "192.168.1.5" (LRUCache.empty 1000 600000) 0 {}
     [0, 1, 2] (by decide)).1⟩

/-- C5: the reserved fallback is bypassed whenever some racer in the
settlement order succeeds, and is invoked exactly once after every primary
has failed; a fulfilled fallback becomes the overall record, its source is
"freeipapi" — no primary's identifier — and a rejected fallback rejects the
whole resolution rather than fabricating a success. -/
theorem c5_fallback_policy (ip : String) (env : Env)
    (order : List (Fin 3)) :
    ((∃ i ∈ order, ∃ d, primaries ip env i = .ok d) →
        (resolveIP ip env order).2 = 0) ∧
    ((∀ i : Fin 3, primaries ip env i = .error ()) →
        (resolveIP ip env order).2 = 1 ∧
        (resolveIP ip env order).1 = queryFreeIpApi ip env.freeipapi ∧
        (∀ g, queryFreeIpApi ip env.freeipapi = .ok g →
            g.source = "freeipapi" ∧
            ∀ j : Fin 3, g.source ≠ providerName j) ∧
        (queryFreeIpApi ip env.freeipapi = .error () →
            (resolveIP ip env order).1 = .error ())) := by
  constructor
  · rintro ⟨i, hm, d, hi⟩
    obtain ⟨j, e, hje⟩ := firstSuccess_isSome_of_mem hm hi
    have hpa := promiseAny_ok_of_firstSuccess hje
    unfold resolveIP
    rw [hpa]
  · intro hfail
    have hpa := promiseAny_error_of_all hfail order
    refine ⟨?_, ?_, ?_, ?_⟩
    · unfold resolveIP; rw [hpa]
    · unfold resolveIP; rw [hpa]
    · intro g hg
      have hfields := queryFreeIpApi_ok_fields hg
      refine ⟨hfields.2.1, ?_⟩
      intro j
      rw [hfields.2.1]
      fin_cases j <;> simp [providerName]
    · intro hfb
      unfold resolveIP
      rw [hpa, hfb]

/-- Witness for C5: with every provider unreachable, the fallback is
invoked exactly once and the resolution rejects. -/
theorem c5_fallback_policy_witness :
    (∀ i : Fin 3, primaries "8.8.8.8" {} i = .error ()) ∧
    (resolveIP "8.8.8.8" {} [0, 1, 2]).2 = 1 ∧
    (resolveIP "8.8.8.8" {} [0, 1, 2]).1 = .error () :=
  ⟨by intro i; fin_cases i <;> rfl,
   ((c5_fallback_policy "8.8.8.8" {} [0, 1, 2]).2
     (by intro i; fin_cases i <;> rfl)).1,
   ((c5_fallback_policy "8.8.8.8" {} [0, 1, 2]).2
     (by intro i; fin_cases i <;> rfl)).2.2.2 (by rfl)⟩

/-- C6: when the address is valid, the cache misses and every primary and
the fallback fail, the handler still returns the degraded record rather
than an error response: accurate false, the populated exhaustion message
"All services failed", and the default country "US". -/
theorem c6_total_failure_degraded (ip : String) (c : LRUCache GeoData)
    (now : Nat) (env : Env) (order : List (Fin 3))
    (hv : isValidPublicIP ip = true)
    (hc : (c.get ip now).1 = none)
    (hfail : ∀ i : Fin 3, primaries ip env i = .error ())
    (hfb : queryFreeIpApi ip env.freeipapi = .error ()) :
    (GETrun ip c now env order).body = fallbackErrorRecord ip ∧
    (GETrun ip c now env order).body.accurate = false ∧
    (GETrun ip c now env order).body.error = some "All services failed" ∧
    (GETrun ip c now env order).body.country = "US" := by
  have hpair : c.get ip now = (none, (c.get ip now).2) := by
    rw [← hc]
  have hres : resolveIP ip env order = (.error (), 1) := by
    unfold resolveIP
    rw [promiseAny_error_of_all hfail order, hfb]
  have hrun : (GETrun ip c now env order).body = fallbackErrorRecord ip := by
    unfold GETrun
    rw [hv, hpair, hres]
    rfl
  refine ⟨hrun, ?_, ?_, ?_⟩ <;> rw [hrun] <;> rfl

/-- Witness for C6: a valid address, an empty cache and an unreachable
provider world yield the degraded record. -/
theorem c6_total_failure_degraded_witness :
    isValidPublicIP "8.8.8.8" = true ∧
    (GETrun "8.8.8.8" (LRUCache.empty 1000 600000) 0 {} [0, 1, 2]).body =
      fallbackErrorRecord "8.8.8.8" :=
  ⟨by decide,
   (c6_total_failure_degraded "8.8.8.8" (LRUCache.empty 1000 600000) 0 {}
     [0, 1, 2] (by decide) (by rfl) (by intro i; fin_cases i <;> rfl)
     (by rfl)).1⟩

/-- C8 as frozen is refuted: fc00::1 lies in the fc00::/7 unique-local
range, which the claim says the validator rejects, yet `isValidPublicIP`
accepts it — the code's unique-local pattern `/^fd[0-9a-f]{2}:.+/i` covers
only the fd00::/8 half of that range. -/
theorem c8_counterexample : isValidPublicIP "fc00::1" = true := by decide

/-- C8 amended: the validator rejects the empty string, the sentinel 未知,
the literal 127.0.0.1, every string containing neither `.` nor `:`, and
every string matching one of the code's private patterns — leading "10.",
"127.", "192.168.", the 172.16–172.31 blocks, the exact text "::1", the
case-insensitive token "localhost", unique-local text of the shape
fd plus two hex digits plus a colon with a nonempty remainder (the fd00::/8 half of
fc00::/7), and link-local text starting "fe80:" with a nonempty
remainder. -/
theorem c8_amended (s : String) :
    (s = "" → isValidPublicIP s = false) ∧
    (s = "未知" → isValidPublicIP s = false) ∧
    (s = "127.0.0.1" → isValidPublicIP s = false) ∧
    (hasChar s '.' = false → hasChar s ':' = false →
        isValidPublicIP s = false) ∧
    (matches10 s = true → isValidPublicIP s = false) ∧
    (matches172 s = true → isValidPublicIP s = false) ∧
    (matches192168 s = true → isValidPublicIP s = false) ∧
    (matches127 s = true → isValidPublicIP s = false) ∧
    (matchesLoopback6 s = true → isValidPublicIP s = false) ∧
    (matchesFd s = true → isValidPublicIP s = false) ∧
    (matchesFe80 s = true → isValidPublicIP s = false) ∧
    (matchesLocalhost s = true → isValidPublicIP s = false) := by
  refine ⟨?_, ?_, ?_, ?_, ?_, ?_, ?_, ?_, ?_, ?_, ?_, ?_⟩
  · intro h; subst h; decide
  · intro h; subst h; decide
  · intro h; subst h; decide
  · intro hd hcl
    cases hv : isValidPublicIP s with
    | false => rfl
    | true =>
        rcases ((isValidPublicIP_true_iff s).mp hv).2.2.2.1 with h | h
        · rw [hd] at h; cases h
        · rw [hcl] at h; cases h
  all_goals
    intro h
    apply isValidPublicIP_false_of_private
    simp [privateMatch, h]

/-- Witness for C8 amended, one rejection from each kind of clause: a
10.0.0.0/8 address, an fd-prefixed unique-local address, and a string that
is not IP-shaped. -/
theorem c8_amended_witness :
    (matches10 "10.1.2.3" = true ∧ isValidPublicIP "10.1.2.3" = false) ∧
    (matchesFd "fd12::1" = true ∧ isValidPublicIP "fd12::1" = false) ∧
    (hasChar "justtext" '.' = false ∧ hasChar "justtext" ':' = false ∧
      isValidPublicIP "justtext" = false) :=
  ⟨⟨by decide, (c8_amended "10.1.2.3").2.2.2.2.1 (by decide)⟩,
   ⟨by decide, (c8_amended "fd12::1").2.2.2.2.2.2.2.2.2.1 (by decide)⟩,
   ⟨by decide, by decide,
    (c8_amended "justtext").2.2.2.1 (by decide) (by decide)⟩⟩

/-- C4 as frozen is refuted: a capacity-1 cache at capacity whose only —
hence least-recently-used — key is the empty string: `set` of the brand-new
key "a" evicts nothing, because the eviction guard `if (firstKey)` treats
the falsy first key as absent; the cache overfills to 2 entries and the LRU
entry survives. -/
theorem c4_counterexample :
    (((LRUCache.empty 1 100 : LRUCache Nat).set "" 0 0).set "a" 0
        0).cache.length = 2 ∧
    lookupKey ""
        ((((LRUCache.empty 1 100 : LRUCache Nat).set "" 0 0).set "a" 0
          0)).cache = some ⟨0, 100⟩ := by decide

/-- C4 amended: on a cache whose backing map has duplicate-free keys,
inserting a brand-new key at capacity evicts exactly the first — least
recently used — entry provided its key is a nonempty string (the falsy-key
guard skips an empty-string victim); overwriting an existing key evicts
nothing and preserves the entry count; and a successful unexpired `get`
moves the accessed key to the most-recently-used end, so recency rather
than insertion order determines the eviction victim. -/
theorem c4_amended {V : Type} (c : LRUCache V)
    (hnd : (c.cache.map Prod.fst).Nodup) :
    (∀ k v now k0 e0 rest, c.cache = (k0, e0) :: rest → k0 ≠ "" →
        c.cache.length = c.maxEntries → lookupKey k c.cache = none →
        (c.set k v now).cache = rest ++ [(k, ⟨v, now + c.ttlMs⟩)]) ∧
    (∀ k v now e, lookupKey k c.cache = some e →
        (c.set k v now).cache =
          eraseKey k c.cache ++ [(k, ⟨v, now + c.ttlMs⟩)] ∧
        (c.set k v now).cache.length = c.cache.length) ∧
    (∀ k now e, lookupKey k c.cache = some e → now ≤ e.expiresAt →
        (c.get k now).1 = some e.value ∧
        (c.get k now).2.cache = eraseKey k c.cache ++ [(k, e)]) := by
  refine ⟨?_, ?_, ?_⟩
  · intro k v now k0 e0 rest hc hk0 hlen habs
    have hbeq : (k0 == "") = false := by
      cases hb : (k0 == "") with
      | false => rfl
      | true => exact absurd (by simpa using hb) hk0
    have hnotin : k0 ∉ rest.map Prod.fst := by
      rw [hc] at hnd
      simp only [List.map_cons, List.nodup_cons] at hnd
      exact hnd.1
    have her : eraseKey k0 ((k0, e0) :: rest) = rest := by
      unfold eraseKey
      rw [List.filter_cons]
      simp only [bne_self_eq_false, Bool.false_eq_true, if_false]
      have := eraseKey_eq_self_of_not_mem hnotin
      unfold eraseKey at this
      exact this
    unfold LRUCache.set
    rw [habs]
    simp only [Option.isSome_none, Bool.false_eq_true, if_false]
    rw [if_pos (le_of_eq hlen.symm), hc]
    simp only [hbeq, Bool.false_eq_true, if_false, her]
  · intro k v now e hk
    have hsome : (lookupKey k c.cache).isSome = true := by rw [hk]; rfl
    constructor
    · unfold LRUCache.set
      rw [if_pos hsome]
    · unfold LRUCache.set
      rw [if_pos hsome]
      simp only [List.length_append, List.length_cons, List.length_nil]
      have := length_eraseKey_of_lookup hnd hk
      omega
  · intro k now e hk hle
    have hexp : ¬ now > e.expiresAt := not_lt.mpr hle
    unfold LRUCache.get
    rw [hk]
    simp only [if_neg hexp]
    exact ⟨trivial, trivial⟩

/-- Witness for C4 amended: a two-entry cache at capacity 2 with nonempty
keys; inserting a brand-new key evicts exactly the oldest entry. -/
theorem c4_amended_witness :
    lookupKey "c"
        (LRUCache.mk [("a", ⟨1, 100⟩), ("b", ⟨2, 100⟩)] 2 100 :
          LRUCache Nat).cache = none ∧
    ((LRUCache.mk [("a", ⟨1, 100⟩), ("b", ⟨2, 100⟩)] 2 100 :
        LRUCache Nat).set "c" 3 50).cache =
      [("b", ⟨2, 100⟩), ("c", ⟨3, 150⟩)] :=
  ⟨by decide,
   (c4_amended
       (LRUCache.mk [("a", ⟨1, 100⟩), ("b", ⟨2, 100⟩)] 2 100 : LRUCache Nat)
       (by decide)).1 "c" 3 50 "a" ⟨1, 100⟩ [("b", ⟨2, 100⟩)] (by rfl)
     (by decide) (by decide) (by decide)⟩

/-- C7 as frozen is refuted: an entry written at time 50 with TTL 50 ms
expires at 100, and a `get` at exactly now = 100 — where the claim demands
the entry be treated as absent since now ≥ expiresAt — still returns the
stored value, because the code's expiry test is the strict
`Date.now() > expiresAt`. -/
theorem c7_counterexample :
    lookupKey "k" ((LRUCache.empty 10 50 : LRUCache Nat).set "k" 7 50).cache =
      some ⟨7, 100⟩ ∧
    (((LRUCache.empty 10 50 : LRUCache Nat).set "k" 7 50).get "k" 100).1 =
      some 7 := by decide

/-- C7 amended: `get` misses on an absent key; it returns the stored value
exactly when now ≤ expiresAt (refreshing recency); and when now > expiresAt
it deletes the entry and reports a miss, so the key is absent afterwards —
lazy expiration with an inclusive deadline. -/
theorem c7_amended {V : Type} (c : LRUCache V) (k : String) (now : Nat) :
    (lookupKey k c.cache = none → c.get k now = (none, c)) ∧
    (∀ e, lookupKey k c.cache = some e → now ≤ e.expiresAt →
        (c.get k now).1 = some e.value ∧
        (c.get k now).2.cache = eraseKey k c.cache ++ [(k, e)]) ∧
    (∀ e, lookupKey k c.cache = some e → now > e.expiresAt →
        c.get k now = (none, { c with cache := eraseKey k c.cache }) ∧
        lookupKey k (c.get k now).2.cache = none) := by
  refine ⟨?_, ?_, ?_⟩
  · intro h
    unfold LRUCache.get
    rw [h]
  · intro e hk hle
    have hexp : ¬ now > e.expiresAt := not_lt.mpr hle
    unfold LRUCache.get
    rw [hk]
    simp only [if_neg hexp]
    exact ⟨trivial, trivial⟩
  · intro e hk hgt
    have hget : c.get k now = (none, { c with cache := eraseKey k c.cache }) := by
      unfold LRUCache.get
      rw [hk]
      simp only [if_pos hgt]
    refine ⟨hget, ?_⟩
    rw [hget]
    exact lookupKey_eraseKey_self k c.cache

/-- Witness for C7 amended: a stale entry (expiresAt 100, queried at 101)
misses and is removed. -/
theorem c7_amended_witness :
    lookupKey "k" ((LRUCache.empty 10 50 : LRUCache Nat).set "k" 7 50).cache =
      some ⟨7, 100⟩ ∧
    (((LRUCache.empty 10 50 : LRUCache Nat).set "k" 7 50).get "k" 101).1 =
      none :=
  ⟨by decide,
   by
    have := ((c7_amended ((LRUCache.empty 10 50 : LRUCache Nat).set "k" 7 50)
      "k" 101).2.2 ⟨7, 100⟩ (by decide) (by decide)).1
    rw [this]⟩

/-- C3: on every reachable deduplicator state the inflight map holds at
most one handle per address; a caller arriving while a handle is pending
leaves the state unchanged, so it awaits the same shared outcome as every
other joiner; a newly registered handle is immediately visible to
subsequent callers; settlement removes the key identically for success and
failure; and right after a settlement the key is absent, so the next
arrival for it registers a fresh handle. -/
theorem c3_dedup_lifecycle (s : DedupState) (hr : DedupReachable s) :
    (s.inflight.map Prod.fst).Nodup ∧
    (∀ ip, (lookupKey ip s.inflight).isSome = true →
        dedupStep s (.arrive ip) = s) ∧
    (∀ ip, lookupKey ip s.inflight = none →
        lookupKey ip (dedupStep s (.arrive ip)).inflight = some s.nextId) ∧
    (∀ ip b, dedupStep s (.settle ip b) = dedupStep s (.settle ip true) ∧
        lookupKey ip (dedupStep s (.settle ip b)).inflight = none) ∧
    (∀ ip b, lookupKey ip
        (dedupStep (dedupStep s (.settle ip b)) (.arrive ip)).inflight =
        some s.nextId) := by
  refine ⟨dedup_inflight_nodup hr, ?_, ?_, ?_, ?_⟩
  · intro ip h
    simp [dedupStep, h]
  · intro ip h
    have hns : (lookupKey ip s.inflight).isSome = false := by rw [h]; rfl
    simp only [dedupStep, hns, Bool.false_eq_true, if_false]
    exact lookupKey_append_self _ h
  · intro ip b
    refine ⟨rfl, ?_⟩
    simp only [dedupStep]
    exact lookupKey_eraseKey_self ip s.inflight
  · intro ip b
    have h1 : lookupKey ip (eraseKey ip s.inflight) = none :=
      lookupKey_eraseKey_self ip s.inflight
    have hns : (lookupKey ip (eraseKey ip s.inflight)).isSome = false := by
      rw [h1]; rfl
    simp only [dedupStep, hns, Bool.false_eq_true, if_false]
    exact lookupKey_append_self _ h1

/-- Witness for C3 at the module-load state: settling and then re-arriving
for an address registers a fresh handle with the next identifier. -/
theorem c3_dedup_lifecycle_witness :
    DedupReachable (⟨[], 0⟩ : DedupState) ∧
    lookupKey "1.2.3.4"
      (dedupStep (dedupStep ⟨[], 0⟩ (.settle "1.2.3.4" true))
        (.arrive "1.2.3.4")).inflight = some 0 :=
  ⟨DedupReachable.init,
   (c3_dedup_lifecycle ⟨[], 0⟩ DedupReachable.init).2.2.2.2 "1.2.3.4" true⟩

/-- C9 as frozen is refuted: in the `LRUCache` route variant, a provider
body with a country code but no country name yields a returned record whose
`countryName` is absent — `queryIpApiCo` passes `data.country_name` through
with no default. -/
theorem c9_counterexample :
    queryIpApiCo "1.2.3.4" (some { country_code := some "US" }) =
      .ok { source := "ipapi.co", ip := "1.2.3.4", country := "US",
            countryName := none, city := none, region := none,
            timezone := none, latitude := none, longitude := none,
            accurate := true, error := none } := by rfl

/-- C9 amended: the defaulting the claim describes is real in the sibling
variants — `createIPResponse` always emits a `countryName`, falling back to
the country code when the provider omitted it, and the second variant's
`queryIpApiCo` does the same — while the `LRUCache` variant's adapters pass
the provider's country name through and may leave it absent. -/
theorem c9_amended :
    (∀ d : IPResponseData,
        (createIPResponse d).countryName =
          some (jsOr d.countryName d.country) ∧
        (d.countryName = none →
          (createIPResponse d).countryName = some d.country) ∧
        (createIPResponse d).countryName ≠ none) ∧
    (∀ ip resp g, queryIpApiCoV2 ip resp = .ok g →
        g.countryName ≠ none ∧
        ∀ d, resp = some d → d.country_name = none →
          g.countryName = some (d.country_code.getD "")) := by
  constructor
  · intro d
    refine ⟨rfl, ?_, by simp [createIPResponse]⟩
    intro h
    simp [createIPResponse, h, jsOr]
  · intro ip resp g hg
    cases resp with
    | none => simp [queryIpApiCoV2] at hg
    | some d =>
        simp only [queryIpApiCoV2] at hg
        split at hg
        · simp at hg
        · cases hg
          constructor
          · simp
          · intro d' hd' hcn
            cases hd'
            simp [hcn, jsOr]

/-- Witness for C9 amended: a body with only a country code still yields a
record carrying that code as its `countryName` in the defaulting variant. -/
theorem c9_amended_witness :
    queryIpApiCoV2 "1.2.3.4" (some { country_code := some "US" }) =
      .ok { source := "ipapi.co", ip := "1.2.3.4", country := "US",
            countryName := some "US", city := some "", region := some "",
            timezone := some "", latitude := none, longitude := none,
            accurate := true, error := none } ∧
    ({ country_code := some "US"} : IpApiCoResponse).country_name = none ∧
    ∀ g, queryIpApiCoV2 "1.2.3.4" (some { country_code := some "US" }) =
        .ok g → g.countryName ≠ none :=
  ⟨by rfl, by rfl,
   fun g hg => (c9_amended.2 "1.2.3.4"
     (some { country_code := some "US" }) g hg).1⟩

/-- C10: validation rejections return before the cache is touched, the
cache write runs only on the fulfilled path of the resolution promise —
whose records all come from an adapter and hence carry accurate true and no
error — and the degraded exhaustion record is synthesized after the promise
rejects without being cached; therefore the handler preserves the invariant
that every record ever stored in the result cache is accurate and
error-free, so a cache hit never serves a degraded result. -/
theorem c10_cache_good (ip : String) (c : LRUCache GeoData) (now : Nat)
    (env : Env) (order : List (Fin 3)) (hinv : cacheInv c) :
    cacheInv (GETrun ip c now env order).cache := by
  cases hval : isValidPublicIP ip with
  | false =>
      have he : (GETrun ip c now env order).cache = c := by
        unfold GETrun
        rw [hval]
        rfl
      rw [he]
      exact hinv
  | true =>
      cases hg : c.get ip now with
      | mk o c' =>
          have hsub : ∀ p ∈ c'.cache, p ∈ c.cache := by
            intro p hp
            apply @get_cache_subset GeoData c ip now
            rw [hg]
            exact hp
          cases o with
          | some d =>
              have he : (GETrun ip c now env order).cache = c' := by
                unfold GETrun
                rw [hval, hg]
                rfl
              rw [he]
              intro p hp
              exact hinv p (hsub p hp)
          | none =>
              cases hres : resolveIP ip env order with
              | mk r fb =>
                  cases r with
                  | ok d =>
                      have he : (GETrun ip c now env order).cache =
                          c'.set ip d now := by
                        unfold GETrun
                        rw [hval, hg, hres]
                        rfl
                      rw [he]
                      intro p hp
                      rcases set_cache_subset p hp with hin | hnew
                      · exact hinv p (hsub p hin)
                      · subst hnew
                        exact resolveIP_ok_good (by rw [hres])
                  | error u =>
                      have he : (GETrun ip c now env order).cache = c' := by
                        unfold GETrun
                        rw [hval, hg, hres]
                        rfl
                      rw [he]
                      intro p hp
                      exact hinv p (hsub p hp)

/-- Witness for C10: starting from the empty cache, a lookup in an
unreachable provider world leaves the cache satisfying the invariant. -/
theorem c10_cache_good_witness :
    cacheInv (GETrun "8.8.8.8" (LRUCache.empty 1000 600000) 0 {}
      [0, 1, 2]).cache :=
  c10_cache_good "8.8.8.8" (LRUCache.empty 1000 600000) 0 {} [0, 1, 2]
    (by intro p hp; simp [LRUCache.empty] at hp)
